import Mathlib

/-!
Shallow embedding of `src/nx/common/workers.py` (nx-workers): the worker
restart state machine (`Worker`), the capture-loop wrapper
(`PacketSnifferWorker._wrapped_process_packet`) and the per-packet record
writer (`PacketProcessor`).

Machine bytes are modelled as `List Nat`, one entry per octet.  Redis
pipeline operations are modelled by the inductive `Op`; the pipeline is the
ordered list of buffered operations, and `execute` is counted separately.
The blake2s digest is modelled as an arbitrary function parameter
`hashFn : Bytes → String`: no claim depends on the digest's internals, only
on what bytes are fed to it.
-/

namespace NxWorkers

abbrev Bytes := List Nat

/-- A captured scapy packet as seen by `PacketProcessor`: its wire bytes
(`packet.original`), its capture timestamp (`packet.time`, modelled as an
integer), the capture interface (`packet.sniffed_on`), and whether
`packet.getlayer(Ether)` yields a link-layer view (`linkIsEther`). -/
structure Packet where
  original : Bytes
  time : Int
  sniffed_on : String
  linkIsEther : Bool
  deriving DecidableEq, Repr

/-- The parsed Ethernet view of a byte string: destination MAC (6 bytes),
source MAC (6 bytes), EtherType (2 bytes, kept as raw bytes) and payload. -/
structure EtherView where
  dst : Bytes
  src : Bytes
  typeBytes : Bytes
  payload : Bytes
  deriving DecidableEq, Repr

/-- Dissect a byte string as an Ethernet frame (`Ether(packet_bytes)`). -/
def parseEther (b : Bytes) : EtherView :=
  { dst := b.take 6
    src := (b.drop 6).take 6
    typeBytes := (b.drop 12).take 2
    payload := b.drop 14 }

/-- Serialize an Ethernet view back to bytes (`bytes(copy_packet)`). -/
def buildEther (v : EtherView) : Bytes :=
  v.dst ++ v.src ++ v.typeBytes ++ v.payload

/-- The parsed IPv4 view of an Ethernet payload, sliced so that the
identification field (bytes 4-5) and the header checksum (bytes 10-11) are
explicit; scapy keeps all other dissected fields verbatim on rebuild. -/
structure IPv4View where
  pre : Bytes
  id : Bytes
  mid : Bytes
  chksum : Bytes
  rest : Bytes
  deriving DecidableEq, Repr

/-- Dissect an Ethernet payload as an IPv4 datagram. -/
def parseIPv4 (b : Bytes) : IPv4View :=
  { pre := b.take 4
    id := (b.drop 4).take 2
    mid := (b.drop 6).take 4
    chksum := (b.drop 10).take 2
    rest := b.drop 12 }

/-- Serialize an IPv4 view back to payload bytes. -/
def buildIPv4 (v : IPv4View) : Bytes :=
  v.pre ++ v.id ++ v.mid ++ v.chksum ++ v.rest

/-- `copy_packet.getlayer(IP)` succeeds: EtherType 0x0800 and a payload long
enough to dissect a 20-byte IPv4 header. -/
def hasIPv4 (v : EtherView) : Prop :=
  v.typeBytes = [0x08, 0x00] ∧ 20 ≤ v.payload.length

instance (v : EtherView) : Decidable (hasIPv4 v) := by
  unfold hasIPv4; infer_instance

/-- `ARP in copy_packet`: EtherType 0x0806 and a payload long enough to
dissect an Ethernet/IPv4 ARP body (28 bytes). -/
def hasARP (v : EtherView) : Prop :=
  v.typeBytes = [0x08, 0x06] ∧ 28 ≤ v.payload.length

instance (v : EtherView) : Decidable (hasARP v) := by
  unfold hasARP; infer_instance

/-- `self.packet.getlayer(Ether)`: the link-layer view, when present. -/
def etherLayer (p : Packet) : Option EtherView :=
  if p.linkIsEther then some (parseEther p.original) else none

/-- `record_issue` prefixes every anomaly category with `unhandled:pkts:`. -/
def issueKey (category : String) : String :=
  "unhandled:pkts:" ++ category

/-- `PacketProcessor._packet_hash_bytes`: the byte string fed to the digest,
together with the anomaly categories recorded while computing it.  If there
is no link-layer view the raw bytes are used verbatim; otherwise a private
copy of the bytes is re-parsed, and if it carries IPv4 the copy's
identification and checksum fields are overwritten with sentinels 0xDEAD and
0xBEEF and the copy is re-serialized; a non-IPv4 non-ARP payload records the
`ether_payload` anomaly and uses the raw bytes verbatim. -/
def packetHashBytes (p : Packet) : Bytes × List String :=
  let packet_bytes := p.original
  match etherLayer p with
  | none => (packet_bytes, [])
  | some _ =>
    let copy_packet := parseEther packet_bytes
    if hasIPv4 copy_packet then
      let ipv4_layer := parseIPv4 copy_packet.payload
      let ipv4_layer := { ipv4_layer with id := [0xde, 0xad], chksum := [0xbe, 0xef] }
      (buildEther { copy_packet with payload := buildIPv4 ipv4_layer }, [])
    else if hasARP copy_packet then
      (packet_bytes, [])
    else
      (packet_bytes, [issueKey "ether_payload"])

/-- `PacketProcessor._packet_hash`: hex digest of the canonicalized bytes.
The digest itself is a parameter; see the file header. -/
def packetHash (hashFn : Bytes → String) (p : Packet) : String :=
  hashFn (packetHashBytes p).1

/-- Spec-side characterization of the IPv4 canonical form: the wire bytes
with the identification field (absolute offsets 18-19) replaced by 0xDEAD
and the header checksum (absolute offsets 24-25) replaced by 0xBEEF. -/
def canonicalizeIPv4 (b : Bytes) : Bytes :=
  b.take 18 ++ [0xde, 0xad] ++ (b.drop 20).take 4 ++ [0xbe, 0xef] ++ b.drop 26

/-- Values written to store fields. -/
inductive Value where
  | str : String → Value
  | int : Int → Value
  | bytes : Bytes → Value
  deriving DecidableEq, Repr

/-- A buffered redis pipeline operation.  `sadd`'s member is an `Option`
because `PacketProcessor.run` buffers `self.packet_hash`, which is still
`None` when processing failed before the hash was assigned. -/
inductive Op where
  | hset : String → List (String × Value) → Op
  | hsetnx : String → String → Value → Op
  | hincrby : String → String → Int → Op
  | sadd : String → Option String → Op
  | expire : String → Nat → Op
  deriving DecidableEq, Repr

/-- The key an operation targets. -/
def Op.key : Op → String
  | .hset k _ => k
  | .hsetnx k _ _ => k
  | .hincrby k _ _ => k
  | .sadd k _ => k
  | .expire k _ => k

/-- Fields an operation overwrites unconditionally. -/
def Op.overwrittenFields : Op → List String
  | .hset _ m => m.map Prod.fst
  | _ => []

/-- Fields an operation writes only if absent. -/
def Op.ifAbsentFields : Op → List String
  | .hsetnx _ f _ => [f]
  | _ => []

/-- The hex digit characters scapy uses in MAC strings (lowercase). -/
def hexDigit (n : Nat) : Char :=
  if n < 10 then Char.ofNat (48 + n) else Char.ofNat (87 + n)

/-- Two-digit lowercase hex of one byte. -/
def byteHex (n : Nat) : String :=
  String.mk [hexDigit (n / 16 % 16), hexDigit (n % 16)]

/-- `Ether.src` as scapy renders it: colon-separated lowercase hex pairs. -/
def macString (bs : Bytes) : String :=
  String.intercalate ":" (bs.map byteHex)

/-- The worker a `PacketProcessor` belongs to: `self.worker.name`. -/
structure WorkerCfg where
  name : String
  deriving DecidableEq, Repr

/-- The keyword arguments handed to `worker.process_packet` (besides the
packet and the pipeline itself). -/
structure ExtInput where
  common_fields : List (String × Value)
  macaddr : String
  mac_key : String
  packet_hash : String
  packet_key : String
  deriving DecidableEq, Repr

/-- Oracle for the two fallible calls inside `PacketProcessor._run`: whether
`self._packet_hash()` raises, and what the extension callback
`worker.process_packet` appends to the pipeline before returning or (when
`extFails`) raising. -/
structure Behavior where
  hashFails : Bool
  ext : Packet → ExtInput → List Op
  extFails : Bool

/-- `self.common_fields` as built at the top of `_run`. -/
def commonFields (w : WorkerCfg) (p : Packet) : List (String × Value) :=
  [("last_seen", Value.int p.time),
   ("last_seen_by", Value.str w.name),
   ("last_seen_by_" ++ w.name, Value.int p.time)]

/-- `PacketProcessor._record_raw_packet`: the three operations buffered for
the raw-packet record. -/
def recordRawPacketOps (w : WorkerCfg) (p : Packet) (packet_key : String)
    (src_mac : Option String) : List Op :=
  let fields := commonFields w p
    ++ [("raw_bytes", Value.bytes p.original),
        ("last_sniffed_on", Value.str p.sniffed_on)]
    ++ (match src_mac with
        | some m => [("last_seen_from", Value.str m)]
        | none => [])
  [Op.hset packet_key fields,
   Op.hsetnx packet_key "first_seen" (Value.int p.time),
   Op.hincrby packet_key "num_sightings" 1]

/-- `PacketProcessor._record_device_sighting`: the four operations buffered
for the device record and the device-to-packet index. -/
def recordDeviceSightingOps (w : WorkerCfg) (p : Packet) (src_mac : String)
    (mac_key : String) (packet_hash : String) : List Op :=
  [Op.sadd "macs" (some src_mac),
   Op.hset mac_key (commonFields w p),
   Op.hsetnx mac_key "first_seen" (Value.int p.time),
   Op.hset ("macpkts_" ++ src_mac) [(packet_hash, Value.int p.time)]]

/-- The observable outcome of `PacketProcessor._run`: the operations it
buffered, the anomaly categories it recorded (`self._issue_categories`),
the final value of `self.packet_hash`, and whether it raised. -/
structure RunBody where
  ops : List Op
  issues : List String
  hash : Option String
  failed : Bool
  deriving Repr

/-- `PacketProcessor._run`, instrumented by the behavior oracle.  Mirrors
the source order: build `common_fields`; record `first_layer` when the
link-layer view is missing; compute the hash (recording `ether_payload`
when applicable, and assigning `self.packet_hash` only on success); record
the raw packet; and, only when a link-layer view exists, record the device
sighting and invoke the extension callback. -/
def runBody (hashFn : Bytes → String) (w : WorkerCfg) (p : Packet)
    (b : Behavior) : RunBody :=
  match etherLayer p with
  | none =>
    let issues := [issueKey "first_layer"]
    if b.hashFails then
      { ops := [], issues := issues, hash := none, failed := true }
    else
      let h := hashFn (packetHashBytes p).1
      let packet_key := "pkt_" ++ h
      { ops := recordRawPacketOps w p packet_key none
        issues := issues ++ (packetHashBytes p).2
        hash := some h
        failed := false }
  | some v =>
    if b.hashFails then
      { ops := [], issues := [], hash := none, failed := true }
    else
      let h := hashFn (packetHashBytes p).1
      let packet_key := "pkt_" ++ h
      let src_mac := (macString v.src).toLower
      let mac_key := "mac_" ++ src_mac
      let extInput : ExtInput :=
        { common_fields := commonFields w p
          macaddr := src_mac
          mac_key := mac_key
          packet_hash := h
          packet_key := packet_key }
      { ops := recordRawPacketOps w p packet_key (some src_mac)
          ++ recordDeviceSightingOps w p src_mac mac_key h
          ++ b.ext p extInput
        issues := (packetHashBytes p).2
        hash := some h
        failed := b.extFails }

/-- What `PacketProcessor.run` hands to the store for one packet: the full
ordered pipeline buffer, the number of `pipeline.execute()` calls, and
whether an exception propagates out of `run`. -/
structure RunOutput where
  ops : List Op
  executeCalls : Nat
  raised : Bool
  deriving Repr

/-- The `try/finally` nesting of `PacketProcessor.run` (lines 154-167):
whatever `_run` did, one `sadd` per recorded anomaly category (member: the
current `self.packet_hash`) is appended, then the worker's heartbeat entry,
and `pipeline.execute()` is called exactly once. -/
def runFinalize (workerName : String) (t : Int) (body : RunBody) : RunOutput :=
  { ops := body.ops
      ++ body.issues.map (fun s => Op.sadd s body.hash)
      ++ [Op.hset "heartbeats" [(workerName, Value.int t)]]
    executeCalls := 1
    raised := body.failed }

/-- `PacketProcessor.run` for one packet. -/
def processorRun (hashFn : Bytes → String) (w : WorkerCfg) (p : Packet)
    (b : Behavior) : RunOutput :=
  runFinalize w.name p.time (runBody hashFn w p b)

/-- The `RestartWorker` control exception. -/
inductive RestartWorker where
  | mk
  deriving DecidableEq, Repr

/-- `Worker._checkpoint_worker`: raises `RestartWorker` exactly when the
pending-restart flag (`self._waiting_to_restart`) is set. -/
def checkpointWorker (waiting : Bool) : Except RestartWorker Unit :=
  if waiting then Except.error RestartWorker.mk else Except.ok ()

/-- `Worker._handle_SIGHUP` acting on the pending-restart flag: when the
flag is already set the handler invokes the checkpoint (which raises,
aborting the handler); otherwise the handler returns normally with the flag
now set. -/
def handleSIGHUP (waiting : Bool) : Except RestartWorker Bool := do
  if waiting then checkpointWorker waiting
  pure true

/-- `PacketSnifferWorker._wrapped_process_packet`: the bare `except:`
swallows (and logs) any outcome of `self._process_packet`, and the
`finally:` runs the checkpoint, whose `RestartWorker` is the only exception
that can escape.  `res` is the outcome of the wrapped processing call. -/
def wrappedProcessPacket {ε α : Type} (waiting : Bool) (res : Except ε α) :
    Except RestartWorker (Option α) :=
  let body : Option α :=
    match res with
    | Except.ok a => some a
    | Except.error _ => none
  match checkpointWorker waiting with
  | Except.error e => Except.error e
  | Except.ok _ => Except.ok body

/-- `self._cmd` as captured at the top of `Worker.run`:
`[sys.executable] + sys.argv`. -/
def capturedCmd (executable : String) (argv : List String) : List String :=
  [executable] ++ argv

/-- A process-image replacement performed by `os.execv(path, args)`. -/
structure Invocation where
  path : String
  args : List String
  deriving DecidableEq, Repr

/-- How `worker.run()` terminated inside `Worker.main`. -/
inductive RunExit where
  | normal
  | restart
  | failed
  deriving DecidableEq, Repr

/-- The externally visible effects of `Worker.main`. -/
structure MainResult where
  execvCall : Option Invocation
  flushedStdout : Bool
  flushedStderr : Bool
  propagated : Bool
  deriving DecidableEq, Repr

/-- `Worker.main`: only `RestartWorker` is caught; on catching it both
output streams are flushed and `os.execv(command[0], command)` replaces the
process image with the captured invocation vector. -/
def workerMain (executable : String) (argv : List String) (exit : RunExit) :
    MainResult :=
  match exit with
  | RunExit.normal =>
    { execvCall := none, flushedStdout := false, flushedStderr := false
      propagated := false }
  | RunExit.failed =>
    { execvCall := none, flushedStdout := false, flushedStderr := false
      propagated := true }
  | RunExit.restart =>
    let command := capturedCmd executable argv
    { execvCall := some { path := command.headD "", args := command }
      flushedStdout := true, flushedStderr := true
      propagated := false }

/-- Modelled from the spec: the per-packet extension callback of the DNS
protocol analyzer (`src/nx/workers/susan.py`, a repository file absent from
`src/`).  Per spec sections 4.2/8, the callback appends its
protocol-specific writes (DNS-query record, query-set membership,
query-packet index, device last-query pointer — abstracted here as
`protoWrites`) to the shared batch, followed by a set-expiry attaching a
time-to-live of 2,419,200 seconds to the packet record. -/
def susanProcessPacket (protoWrites : List Op) (_p : Packet)
    (inp : ExtInput) : List Op :=
  protoWrites ++ [Op.expire inp.packet_key 2419200]

/-- A field store: key, then field, to an optional value.  Set membership
and TTLs are not tracked; `sadd` and `expire` leave fields unchanged. -/
def Store := String → String → Option Value

/-- First-match lookup in an hset mapping (the source builds these from
python dicts, so fields are distinct). -/
def lookupField (f : String) : List (String × Value) → Option Value
  | [] => none
  | (g, v) :: rest => if g = f then some v else lookupField f rest

/-- Redis semantics of one buffered operation on the field store. -/
def applyOp (s : Store) : Op → Store
  | Op.hset k m => fun k' f =>
      if k' = k then
        match lookupField f m with
        | some v => some v
        | none => s k' f
      else s k' f
  | Op.hsetnx k f v => fun k' f' =>
      if k' = k ∧ f' = f then
        match s k f with
        | some old => some old
        | none => some v
      else s k' f'
  | Op.hincrby k f d => fun k' f' =>
      if k' = k ∧ f' = f then
        match s k f with
        | some (Value.int n) => some (Value.int (n + d))
        | some v => some v
        | none => some (Value.int d)
      else s k' f'
  | Op.sadd _ _ => s
  | Op.expire _ _ => s

/-- Apply a buffered operation sequence in order. -/
def applyOps (s : Store) (ops : List Op) : Store :=
  ops.foldl applyOp s

/-- The operations `_run` buffers for the raw-packet record and the device
sighting, with the keys exactly as `_run` computes them from the packet hash
and the lowercased source MAC. -/
def packetAndDeviceOps (w : WorkerCfg) (p : Packet) (hsh smac : String) :
    List Op :=
  recordRawPacketOps w p ("pkt_" ++ hsh) (some smac)
    ++ recordDeviceSightingOps w p smac ("mac_" ++ smac) hsh

/-! ### Helper lemmas shared by the claim theorems -/

theorem packetHashBytes_ipv4_eq_canonicalize (p : Packet)
    (hL : p.linkIsEther = true) (hIP : hasIPv4 (parseEther p.original)) :
    (packetHashBytes p).1 = canonicalizeIPv4 p.original := by
  unfold packetHashBytes etherLayer
  rw [hL]
  simp only [if_pos hIP]
  unfold buildEther buildIPv4 parseEther parseIPv4 canonicalizeIPv4
  simp only [List.drop_drop]
  have h6 : p.original.take 6 ++ (p.original.drop 6).take 6 = p.original.take 12 := by
    rw [← List.take_add]
  have h12 : p.original.take 12 ++ (p.original.drop 12).take 2 = p.original.take 14 := by
    rw [← List.take_add]
  have h14 : p.original.take 14 ++ (p.original.drop 14).take 4 = p.original.take 18 := by
    rw [← List.take_add]
  simp only [List.append_assoc] at *
  rw [show (6 + 14 : Nat) = 20 by rfl, show (12 + 14 : Nat) = 26 by rfl]
  rw [← List.append_assoc (p.original.take 6), h6]
  rw [← List.append_assoc (p.original.take 12), h12]
  rw [← List.append_assoc (p.original.take 14), h14]
  simp

lemma mem_sadd_runFinalize (name : String) (t : Int) (body : RunBody)
    {s : String} (hs : s ∈ body.issues) :
    Op.sadd s body.hash ∈ (runFinalize name t body).ops := by
  simp only [runFinalize, List.mem_append]
  left; right
  exact List.mem_map.mpr ⟨s, hs, rfl⟩

lemma mem_heartbeat_runFinalize (name : String) (t : Int) (body : RunBody) :
    Op.hset "heartbeats" [(name, Value.int t)] ∈ (runFinalize name t body).ops := by
  simp [runFinalize]

lemma executeCalls_runFinalize (name : String) (t : Int) (body : RunBody) :
    (runFinalize name t body).executeCalls = 1 := rfl

lemma append_ne_append_char (a b x y : String) (i : Nat)
    (ca cb : Char) (ha : a.data[i]? = some ca) (hb : b.data[i]? = some cb)
    (hc : ca ≠ cb) : a ++ x ≠ b ++ y := by
  intro He
  apply hc
  have hd := congrArg (fun s => s.data[i]?) He
  simp only [String.data_append] at hd
  rw [List.getElem?_append_left (List.getElem?_eq_some.mp ha).1,
      List.getElem?_append_left (List.getElem?_eq_some.mp hb).1] at hd
  rw [ha, hb] at hd
  exact Option.some.inj hd

lemma append_ne_char (a b x : String) (i : Nat) (ca cb : Char)
    (ha : a.data[i]? = some ca) (hb : b.data[i]? = some cb)
    (hc : ca ≠ cb) : a ++ x ≠ b := by
  intro He
  apply hc
  have hd := congrArg (fun s => s.data[i]?) He
  simp only [String.data_append] at hd
  rw [List.getElem?_append_left (List.getElem?_eq_some.mp ha).1] at hd
  rw [ha, hb] at hd
  exact Option.some.inj hd

lemma canonicalizeIPv4_congr {bs cs : Bytes} (hlen : bs.length = cs.length)
    (h : ∀ i, i < bs.length → i ≠ 18 → i ≠ 19 → i ≠ 24 → i ≠ 25 →
      bs.getD i 0 = cs.getD i 0) :
    canonicalizeIPv4 bs = canonicalizeIPv4 cs := by
  have helem : ∀ i (hib : i < bs.length) (hic : i < cs.length),
      i ≠ 18 → i ≠ 19 → i ≠ 24 → i ≠ 25 → bs[i] = cs[i] := by
    intro i hib hic h18 h19 h24 h25
    have hgd := h i hib h18 h19 h24 h25
    rwa [List.getD_eq_getElem bs 0 hib, List.getD_eq_getElem cs 0 hic] at hgd
  unfold canonicalizeIPv4
  have ht18 : bs.take 18 = cs.take 18 := by
    apply List.ext_getElem (by simp [hlen])
    intro i h1 h2
    simp only [List.length_take, lt_min_iff] at h1 h2
    simp only [List.getElem_take]
    exact helem i h1.2 h2.2 (by omega) (by omega) (by omega) (by omega)
  have hmid : (bs.drop 20).take 4 = (cs.drop 20).take 4 := by
    apply List.ext_getElem (by simp [hlen])
    intro i h1 h2
    simp only [List.length_take, List.length_drop, lt_min_iff] at h1 h2
    simp only [List.getElem_take, List.getElem_drop]
    exact helem (20 + i) (by omega) (by omega) (by omega) (by omega)
      (by omega) (by omega)
  have htail : bs.drop 26 = cs.drop 26 := by
    apply List.ext_getElem (by simp [hlen])
    intro i h1 h2
    simp only [List.length_drop] at h1 h2
    simp only [List.getElem_drop]
    exact helem (26 + i) (by omega) (by omega) (by omega) (by omega)
      (by omega) (by omega)
  rw [ht18, hmid, htail]

/-! ### Claim theorems -/

/-- C1: for every packet processed by `PacketProcessor.run`, whatever state
`_run` left behind (extension-callback failure or a raise at any earlier
step included — the `RunBody` is arbitrary): every recorded anomaly
category has a corresponding set-add buffered, the worker's heartbeat entry
is set to the packet's timestamp in the batch, and `pipeline.execute` is
called exactly once; the same holds verbatim for `processorRun` under any
behavior of the fallible steps. -/
theorem C1_run_batch_guarantees (name : String) (t : Int) (body : RunBody)
    (hashFn : Bytes → String) (w : WorkerCfg) (p : Packet) (b : Behavior) :
    ((∀ s ∈ body.issues, Op.sadd s body.hash ∈ (runFinalize name t body).ops)
      ∧ Op.hset "heartbeats" [(name, Value.int t)] ∈ (runFinalize name t body).ops
      ∧ (runFinalize name t body).executeCalls = 1)
    ∧ ((∀ s ∈ (runBody hashFn w p b).issues,
          Op.sadd s (runBody hashFn w p b).hash ∈ (processorRun hashFn w p b).ops)
      ∧ Op.hset "heartbeats" [(w.name, Value.int p.time)] ∈ (processorRun hashFn w p b).ops
      ∧ (processorRun hashFn w p b).executeCalls = 1) :=
  ⟨⟨fun _ hs => mem_sadd_runFinalize name t body hs,
    mem_heartbeat_runFinalize name t body,
    executeCalls_runFinalize name t body⟩,
   ⟨fun _ hs => mem_sadd_runFinalize w.name p.time _ hs,
    mem_heartbeat_runFinalize w.name p.time _,
    executeCalls_runFinalize w.name p.time _⟩⟩

/-- Witness for C1 at a concrete failed run body. -/
theorem C1_run_batch_guarantees_witness :
    Op.sadd "unhandled:pkts:first_layer" none ∈
      (runFinalize "susan" 3 ⟨[], ["unhandled:pkts:first_layer"], none, true⟩).ops
    ∧ Op.hset "heartbeats" [("susan", Value.int 3)] ∈
      (runFinalize "susan" 3 ⟨[], ["unhandled:pkts:first_layer"], none, true⟩).ops
    ∧ (runFinalize "susan" 3
        ⟨[], ["unhandled:pkts:first_layer"], none, true⟩).executeCalls = 1 := by
  have h := C1_run_batch_guarantees "susan" 3
    ⟨[], ["unhandled:pkts:first_layer"], none, true⟩
    (fun _ => "") ⟨"susan"⟩ ⟨[], 3, "eth0", false⟩ ⟨false, fun _ _ => [], false⟩
  exact ⟨h.1.1 _ (by simp), h.1.2.1, h.1.2.2⟩

/-- C4: the restart state machine.  A first SIGHUP with the pending flag
clear sets the flag and returns without raising; a second SIGHUP with the
flag set raises `RestartWorker` immediately from the handler; the
checkpoint raises exactly when the flag is set; and the checkpoint run by
the capture-loop wrapper after every packet invocation — success or
failure — raises exactly when the flag is set. -/
theorem C4_restart_state_machine (ε α : Type) (res : Except ε α) :
    handleSIGHUP false = Except.ok true
    ∧ handleSIGHUP true = Except.error RestartWorker.mk
    ∧ (∀ waiting : Bool, checkpointWorker waiting =
        if waiting then Except.error RestartWorker.mk else Except.ok ())
    ∧ (∀ waiting : Bool, wrappedProcessPacket waiting res =
        if waiting then Except.error RestartWorker.mk
        else Except.ok res.toOption) := by
  refine ⟨rfl, rfl, fun waiting => rfl, fun waiting => ?_⟩
  cases waiting <;> cases res <;> rfl

/-- C8: per-packet failure isolation.  Any exception from a packet's
processing is swallowed by the wrapper (yielding `none`); the only
exception that escapes it is the `RestartWorker` raised by the post-packet
checkpoint, and the wrapper returns normally exactly when no restart is
pending. -/
theorem C8_per_packet_failure_isolation (ε α : Type) (waiting : Bool)
    (res : Except ε α) (e : ε) :
    wrappedProcessPacket waiting (Except.error e : Except ε α) =
      (if waiting then Except.error RestartWorker.mk else Except.ok none)
    ∧ wrappedProcessPacket waiting res =
      (if waiting then Except.error RestartWorker.mk else Except.ok res.toOption)
    ∧ (waiting = false ↔ ∃ o, wrappedProcessPacket waiting res = Except.ok o) := by
  refine ⟨?_, ?_, ?_⟩
  · cases waiting <;> rfl
  · cases waiting <;> cases res <;> rfl
  · cases waiting
    · exact ⟨fun _ => ⟨res.toOption, by cases res <;> rfl⟩, fun _ => rfl⟩
    · constructor
      · intro hcontra
        cases hcontra
      · rintro ⟨o, ho⟩
        cases res <;> simp [wrappedProcessPacket, checkpointWorker] at ho

/-- C9: on `RestartWorker` escaping the run loop, `Worker.main` flushes
both output streams and re-execs exactly the invocation vector
`[sys.executable] + sys.argv` captured at startup; no other run outcome
triggers the re-exec path. -/
theorem C9_reexec_invocation (executable : String) (argv : List String) :
    workerMain executable argv RunExit.restart =
      { execvCall := some { path := executable, args := executable :: argv }
        flushedStdout := true, flushedStderr := true, propagated := false }
    ∧ (workerMain executable argv RunExit.restart).execvCall =
        some { path := (capturedCmd executable argv).headD ""
               args := capturedCmd executable argv }
    ∧ workerMain executable argv RunExit.normal = ⟨none, false, false, false⟩
    ∧ workerMain executable argv RunExit.failed = ⟨none, false, false, true⟩ :=
  ⟨rfl, rfl, rfl, rfl⟩

/-- C10: every recorded anomaly category `c` is set-added to the store set
keyed `unhandled:pkts:` followed by `c`, with member the value of
`self.packet_hash` at submission time; in particular when processing raised
before the hash was assigned (no link-layer view and a failing hash step)
the buffered member is `None`, and on a successful hash step the member is
the packet's fingerprint. -/
theorem C10_issue_set_members (hashFn : Bytes → String) (w : WorkerCfg)
    (p : Packet) (b : Behavior) :
    (∀ c : String, issueKey c ∈ (runBody hashFn w p b).issues →
        Op.sadd ("unhandled:pkts:" ++ c) (runBody hashFn w p b).hash
          ∈ (processorRun hashFn w p b).ops)
    ∧ (p.linkIsEther = false → b.hashFails = true →
        (runBody hashFn w p b).hash = none
        ∧ Op.sadd "unhandled:pkts:first_layer" none ∈ (processorRun hashFn w p b).ops)
    ∧ (b.hashFails = false →
        (runBody hashFn w p b).hash = some (packetHash hashFn p)) := by
  refine ⟨?_, ?_, ?_⟩
  · intro c hc
    exact mem_sadd_runFinalize w.name p.time _ hc
  · intro hL hB
    have hbody : runBody hashFn w p b =
        ⟨[], [issueKey "first_layer"], none, true⟩ := by
      simp [runBody, etherLayer, hL, hB]
    refine ⟨by rw [hbody], ?_⟩
    have hmem := mem_sadd_runFinalize w.name p.time (runBody hashFn w p b)
      (s := issueKey "first_layer") (by rw [hbody]; simp)
    rw [show (runBody hashFn w p b).hash = none by rw [hbody],
        show issueKey "first_layer" = "unhandled:pkts:first_layer" from rfl] at hmem
    exact hmem
  · intro hB
    unfold runBody
    cases hE : etherLayer p <;> simp [hB, packetHash]

/-- C3: anomaly tagging.  No link-layer view: anomaly `first_layer` is
recorded and the fingerprint input is the raw bytes; a link-layer view with
a non-IPv4, non-ARP payload: anomaly `ether_payload` is recorded and the
fingerprint input is the raw bytes; an ARP payload: no anomaly is recorded
and the fingerprint input is the raw bytes. -/
theorem C3_anomaly_tagging (hashFn : Bytes → String) (w : WorkerCfg)
    (p : Packet) (b : Behavior) (hB : b.hashFails = false) :
    (p.linkIsEther = false →
        (packetHashBytes p).1 = p.original
        ∧ (runBody hashFn w p b).issues = [issueKey "first_layer"])
    ∧ (p.linkIsEther = true → ¬ hasIPv4 (parseEther p.original) →
        ¬ hasARP (parseEther p.original) →
        (packetHashBytes p).1 = p.original
        ∧ (runBody hashFn w p b).issues = [issueKey "ether_payload"])
    ∧ (p.linkIsEther = true → hasARP (parseEther p.original) →
        (packetHashBytes p).1 = p.original
        ∧ (runBody hashFn w p b).issues = []) := by
  refine ⟨?_, ?_, ?_⟩
  · intro hL
    have hE : etherLayer p = none := by simp [etherLayer, hL]
    refine ⟨by simp [packetHashBytes, hE], ?_⟩
    simp [runBody, hE, hB, packetHashBytes]
  · intro hL hIP hARP
    have hE : etherLayer p = some (parseEther p.original) := by
      simp [etherLayer, hL]
    have hpb : packetHashBytes p = (p.original, [issueKey "ether_payload"]) := by
      simp [packetHashBytes, hE, hIP, hARP]
    exact ⟨by rw [hpb], by simp [runBody, hE, hB, hpb]⟩
  · intro hL hARP
    have hIP : ¬ hasIPv4 (parseEther p.original) := by
      intro hIP
      have hcontra := hARP.1.symm.trans hIP.1
      simp at hcontra
    have hE : etherLayer p = some (parseEther p.original) := by
      simp [etherLayer, hL]
    have hpb : packetHashBytes p = (p.original, []) := by
      simp [packetHashBytes, hE, hIP, hARP]
    exact ⟨by rw [hpb], by simp [runBody, hE, hB, hpb]⟩

/-- Witness for C3 at three concrete packets: one with no link-layer view,
one IPv6-typed Ethernet frame, one ARP frame. -/
theorem C3_anomaly_tagging_witness :
    ((packetHashBytes ⟨[1, 2, 3], 5, "eth0", false⟩).1 = [1, 2, 3]
      ∧ (runBody (fun _ => "H") ⟨"susan"⟩ ⟨[1, 2, 3], 5, "eth0", false⟩
          ⟨false, fun _ _ => [], false⟩).issues = [issueKey "first_layer"])
    ∧ ((packetHashBytes ⟨[1, 1, 1, 1, 1, 1, 2, 2, 2, 2, 2, 2, 134, 221,
          0, 0, 0, 0, 0, 0, 0, 0, 0, 0], 5, "eth0", true⟩).1 =
        [1, 1, 1, 1, 1, 1, 2, 2, 2, 2, 2, 2, 134, 221,
          0, 0, 0, 0, 0, 0, 0, 0, 0, 0]
      ∧ (runBody (fun _ => "H") ⟨"susan"⟩ ⟨[1, 1, 1, 1, 1, 1, 2, 2, 2, 2, 2, 2,
          134, 221, 0, 0, 0, 0, 0, 0, 0, 0, 0, 0], 5, "eth0", true⟩
          ⟨false, fun _ _ => [], false⟩).issues = [issueKey "ether_payload"])
    ∧ ((packetHashBytes ⟨[1, 1, 1, 1, 1, 1, 2, 2, 2, 2, 2, 2, 8, 6,
          0, 0, 0, 0, 0, 0, 0, 0, 0, 0, 0, 0, 0, 0, 0, 0, 0, 0, 0, 0,
          0, 0, 0, 0, 0, 0, 0, 0], 5, "eth0", true⟩).1 =
        [1, 1, 1, 1, 1, 1, 2, 2, 2, 2, 2, 2, 8, 6,
          0, 0, 0, 0, 0, 0, 0, 0, 0, 0, 0, 0, 0, 0, 0, 0, 0, 0, 0, 0,
          0, 0, 0, 0, 0, 0, 0, 0]
      ∧ (runBody (fun _ => "H") ⟨"susan"⟩ ⟨[1, 1, 1, 1, 1, 1, 2, 2, 2, 2, 2, 2,
          8, 6, 0, 0, 0, 0, 0, 0, 0, 0, 0, 0, 0, 0, 0, 0, 0, 0, 0, 0, 0, 0,
          0, 0, 0, 0, 0, 0, 0, 0], 5, "eth0", true⟩
          ⟨false, fun _ _ => [], false⟩).issues = []) := by
  refine ⟨?_, ?_, ?_⟩
  · exact (C3_anomaly_tagging (fun _ => "H") ⟨"susan"⟩ _ _ rfl).1 rfl
  · exact (C3_anomaly_tagging (fun _ => "H") ⟨"susan"⟩ _ _ rfl).2.1 rfl
      (by decide) (by decide)
  · exact (C3_anomaly_tagging (fun _ => "H") ⟨"susan"⟩ _ _ rfl).2.2 rfl
      (by decide)

/-- C2: for Ethernet/IPv4 packets the fingerprint input is the re-serialized
private copy with the IPv4 identification overwritten by 0xDEAD and the
header checksum by 0xBEEF; consequently two such packets that differ only in
those two fields (wire offsets 18-19 and 24-25) have equal fingerprints. -/
theorem C2_ipv4_canonicalization (hashFn : Bytes → String) (p q : Packet)
    (hpL : p.linkIsEther = true) (hqL : q.linkIsEther = true)
    (hpIP : hasIPv4 (parseEther p.original))
    (hqIP : hasIPv4 (parseEther q.original))
    (hlen : p.original.length = q.original.length)
    (hagree : ∀ i, i < p.original.length → i ≠ 18 → i ≠ 19 → i ≠ 24 →
      i ≠ 25 → p.original.getD i 0 = q.original.getD i 0) :
    (packetHashBytes p).1 = canonicalizeIPv4 p.original
    ∧ (packetHashBytes q).1 = canonicalizeIPv4 q.original
    ∧ (packetHashBytes p).1 = (packetHashBytes q).1
    ∧ packetHash hashFn p = packetHash hashFn q := by
  have h1 := packetHashBytes_ipv4_eq_canonicalize p hpL hpIP
  have h2 := packetHashBytes_ipv4_eq_canonicalize q hqL hqIP
  have h3 : canonicalizeIPv4 p.original = canonicalizeIPv4 q.original :=
    canonicalizeIPv4_congr hlen hagree
  refine ⟨h1, h2, by rw [h1, h2, h3], ?_⟩
  unfold packetHash
  rw [h1, h2, h3]

/-- Witness for C2 at two concrete Ethernet/IPv4 frames differing exactly in
the identification and checksum bytes. -/
theorem C2_ipv4_canonicalization_witness :
    (packetHashBytes ⟨[0, 1, 2, 3, 4, 5, 6, 7, 8, 9, 10, 11, 8, 0,
        69, 0, 0, 20, 0, 0, 0, 0, 64, 6, 0, 0, 10, 0, 0, 1, 10, 0, 0, 2],
        5, "eth0", true⟩).1 =
      (packetHashBytes ⟨[0, 1, 2, 3, 4, 5, 6, 7, 8, 9, 10, 11, 8, 0,
        69, 0, 0, 20, 222, 1, 0, 0, 64, 6, 9, 9, 10, 0, 0, 1, 10, 0, 0, 2],
        5, "eth0", true⟩).1
    ∧ packetHash (fun b => String.intercalate "," (b.map toString))
        ⟨[0, 1, 2, 3, 4, 5, 6, 7, 8, 9, 10, 11, 8, 0,
          69, 0, 0, 20, 0, 0, 0, 0, 64, 6, 0, 0, 10, 0, 0, 1, 10, 0, 0, 2],
          5, "eth0", true⟩ =
      packetHash (fun b => String.intercalate "," (b.map toString))
        ⟨[0, 1, 2, 3, 4, 5, 6, 7, 8, 9, 10, 11, 8, 0,
          69, 0, 0, 20, 222, 1, 0, 0, 64, 6, 9, 9, 10, 0, 0, 1, 10, 0, 0, 2],
          5, "eth0", true⟩ := by
  have h := C2_ipv4_canonicalization
    (fun b => String.intercalate "," (b.map toString))
    ⟨[0, 1, 2, 3, 4, 5, 6, 7, 8, 9, 10, 11, 8, 0,
      69, 0, 0, 20, 0, 0, 0, 0, 64, 6, 0, 0, 10, 0, 0, 1, 10, 0, 0, 2],
      5, "eth0", true⟩
    ⟨[0, 1, 2, 3, 4, 5, 6, 7, 8, 9, 10, 11, 8, 0,
      69, 0, 0, 20, 222, 1, 0, 0, 64, 6, 9, 9, 10, 0, 0, 1, 10, 0, 0, 2],
      5, "eth0", true⟩
    rfl rfl (by decide) (by decide) rfl (by decide)
  exact ⟨h.2.2.1, h.2.2.2⟩

/-- C5: the fingerprinter is deterministic and pure.  The fingerprint is a
function of the captured bytes and the link-layer flag alone; the raw-packet
record always stores the unmodified captured bytes (only the re-parsed copy
is canonicalized); and the full pipeline buffer of a run (with an extension
that appends nothing) consists of the record writes only — computing the
hash buffers no store operation. -/
theorem C5_fingerprint_pure (hashFn : Bytes → String) (w : WorkerCfg)
    (p q : Packet)
    (hOrig : p.original = q.original) (hLink : p.linkIsEther = q.linkIsEther) :
    packetHash hashFn p = packetHash hashFn q
    ∧ (∀ (packet_key : String) (src_mac : Option String), ∃ flds,
        Op.hset packet_key flds ∈ recordRawPacketOps w p packet_key src_mac
        ∧ lookupField "raw_bytes" flds = some (Value.bytes p.original))
    ∧ ((runBody hashFn w p ⟨false, fun _ _ => [], false⟩).ops =
        if p.linkIsEther then
          recordRawPacketOps w p ("pkt_" ++ packetHash hashFn p)
              (some ((macString (parseEther p.original).src).toLower))
            ++ recordDeviceSightingOps w p
                ((macString (parseEther p.original).src).toLower)
                ("mac_" ++ (macString (parseEther p.original).src).toLower)
                (packetHash hashFn p)
        else recordRawPacketOps w p ("pkt_" ++ packetHash hashFn p) none) := by
  refine ⟨?_, ?_, ?_⟩
  · unfold packetHash packetHashBytes etherLayer
    rw [hOrig, hLink]
  · intro packet_key src_mac
    unfold recordRawPacketOps
    refine ⟨_, List.mem_cons_self _ _, ?_⟩
    have hne : ("last_seen_by_" ++ w.name) ≠ "raw_bytes" :=
      append_ne_char "last_seen_by_" "raw_bytes" w.name 0 'l' 'r'
        (by decide) (by decide) (by decide)
    simp only [commonFields, List.cons_append, List.nil_append, lookupField]
    rw [if_neg (by decide), if_neg (by decide), if_neg hne]
    simp
  · unfold runBody etherLayer
    cases hL : p.linkIsEther
    · simp [packetHash]
    · simp [packetHash]

/-- Witness for C5 at two concrete packets equal in bytes and link flag but
different in timestamp and interface. -/
theorem C5_fingerprint_pure_witness :
    packetHash (fun b => String.intercalate "," (b.map toString))
        ⟨[1, 2], 5, "eth0", false⟩ =
      packetHash (fun b => String.intercalate "," (b.map toString))
        ⟨[1, 2], 9, "wlan0", false⟩
    ∧ ∃ flds,
        Op.hset "pkt_K" flds ∈
          recordRawPacketOps ⟨"susan"⟩ ⟨[1, 2], 5, "eth0", false⟩ "pkt_K" none
        ∧ lookupField "raw_bytes" flds = some (Value.bytes [1, 2]) := by
  have h := C5_fingerprint_pure
    (fun b => String.intercalate "," (b.map toString))
    ⟨"susan"⟩ ⟨[1, 2], 5, "eth0", false⟩ ⟨[1, 2], 9, "wlan0", false⟩ rfl rfl
  exact ⟨h.1, h.2.1 "pkt_K" none⟩

/-- Counterexample to C7 as frozen: a packet with no link-layer view is
still processed — its raw-packet record is fully written and its batch
submitted exactly once — yet `_run` returns before the extension callback
(the emitter of the set-expiry) is invoked, so the submitted batch contains
no set-expiry on the raw-packet record at all. -/
theorem C7_counterexample_no_link_layer :
    Op.expire ("pkt_" ++ packetHash (fun _ => "H")
        ⟨[1, 2, 3], 5, "eth0", false⟩) 2419200 ∉
      (processorRun (fun _ => "H") ⟨"susan"⟩ ⟨[1, 2, 3], 5, "eth0", false⟩
        ⟨false, susanProcessPacket [], false⟩).ops
    ∧ (processorRun (fun _ => "H") ⟨"susan"⟩ ⟨[1, 2, 3], 5, "eth0", false⟩
        ⟨false, susanProcessPacket [], false⟩).executeCalls = 1 := by
  constructor
  · decide
  · rfl

/-- C7, amended: with the DNS worker's extension callback (modelled from
the spec), the batch of every processed packet that has a link-layer view
(so the callback runs, here completing normally) contains a set-expiry of
2,419,200 seconds on the raw-packet record, placed after the
protocol-extension writes and before the heartbeat write; the first
conjunct exhibits the entire buffered sequence in order.  (As frozen —
"for every captured packet" — the claim fails on packets with no
link-layer view, whose batch is still fully built and submitted but never
reaches the extension callback.) -/
theorem C7_packet_record_ttl (hashFn : Bytes → String) (w : WorkerCfg)
    (p : Packet) (protoWrites : List Op) (hL : p.linkIsEther = true) :
    (processorRun hashFn w p
        ⟨false, susanProcessPacket protoWrites, false⟩).ops =
      recordRawPacketOps w p ("pkt_" ++ packetHash hashFn p)
          (some ((macString (parseEther p.original).src).toLower))
        ++ recordDeviceSightingOps w p
            ((macString (parseEther p.original).src).toLower)
            ("mac_" ++ (macString (parseEther p.original).src).toLower)
            (packetHash hashFn p)
        ++ protoWrites
        ++ [Op.expire ("pkt_" ++ packetHash hashFn p) 2419200]
        ++ ((packetHashBytes p).2).map
            (fun s => Op.sadd s (some (packetHash hashFn p)))
        ++ [Op.hset "heartbeats" [(w.name, Value.int p.time)]]
    ∧ Op.expire ("pkt_" ++ packetHash hashFn p) 2419200 ∈
        (processorRun hashFn w p
          ⟨false, susanProcessPacket protoWrites, false⟩).ops := by
  have hE : etherLayer p = some (parseEther p.original) := by
    simp [etherLayer, hL]
  have heq : (processorRun hashFn w p
      ⟨false, susanProcessPacket protoWrites, false⟩).ops =
      recordRawPacketOps w p ("pkt_" ++ packetHash hashFn p)
          (some ((macString (parseEther p.original).src).toLower))
        ++ recordDeviceSightingOps w p
            ((macString (parseEther p.original).src).toLower)
            ("mac_" ++ (macString (parseEther p.original).src).toLower)
            (packetHash hashFn p)
        ++ protoWrites
        ++ [Op.expire ("pkt_" ++ packetHash hashFn p) 2419200]
        ++ ((packetHashBytes p).2).map
            (fun s => Op.sadd s (some (packetHash hashFn p)))
        ++ [Op.hset "heartbeats" [(w.name, Value.int p.time)]] := by
    simp [processorRun, runFinalize, runBody, hE, susanProcessPacket,
      packetHash, List.append_assoc]
  refine ⟨heq, ?_⟩
  rw [heq]
  simp

/-- Witness for C7 at a concrete Ethernet/IPv4 packet. -/
theorem C7_packet_record_ttl_witness :
    Op.expire
        ("pkt_" ++ packetHash (fun _ => "H")
          ⟨[0, 1, 2, 3, 4, 5, 6, 7, 8, 9, 10, 11, 8, 0,
            69, 0, 0, 20, 0, 0, 0, 0, 64, 6, 0, 0, 10, 0, 0, 1, 10, 0, 0, 2],
            5, "eth0", true⟩) 2419200 ∈
      (processorRun (fun _ => "H") ⟨"susan"⟩
        ⟨[0, 1, 2, 3, 4, 5, 6, 7, 8, 9, 10, 11, 8, 0,
          69, 0, 0, 20, 0, 0, 0, 0, 64, 6, 0, 0, 10, 0, 0, 1, 10, 0, 0, 2],
          5, "eth0", true⟩
        ⟨false, susanProcessPacket [], false⟩).ops :=
  (C7_packet_record_ttl (fun _ => "H") ⟨"susan"⟩
    ⟨[0, 1, 2, 3, 4, 5, 6, 7, 8, 9, 10, 11, 8, 0,
      69, 0, 0, 20, 0, 0, 0, 0, 64, 6, 0, 0, 10, 0, 0, 1, 10, 0, 0, 2],
      5, "eth0", true⟩ [] rfl).2

/-- C6: on both the packet record and the device record, `first_seen` is
written only with the set-if-absent operation, `last_seen` only with the
unconditional overwrite, and the only counter increment is `num_sightings`
by exactly 1; replaying a packet whose hash and MAC already have records
leaves both `first_seen` fields unchanged, advances both `last_seen` fields
to the packet's timestamp, and increments `num_sightings` by one. -/
theorem C6_first_seen_immutable (w : WorkerCfg) (p : Packet)
    (hsh smac : String) (s0 : Store) (v0 v1 : Value) (n : Int)
    (hpf : s0 ("pkt_" ++ hsh) "first_seen" = some v0)
    (hpn : s0 ("pkt_" ++ hsh) "num_sightings" = some (Value.int n))
    (hmf : s0 ("mac_" ++ smac) "first_seen" = some v1) :
    (∀ o ∈ packetAndDeviceOps w p hsh smac,
      (Op.key o = "pkt_" ++ hsh ∨ Op.key o = "mac_" ++ smac) →
        "first_seen" ∉ o.overwrittenFields)
    ∧ (∀ o ∈ packetAndDeviceOps w p hsh smac,
        "last_seen" ∉ o.ifAbsentFields)
    ∧ (∀ o ∈ packetAndDeviceOps w p hsh smac, ∀ k f d,
        o = Op.hincrby k f d →
          k = "pkt_" ++ hsh ∧ f = "num_sightings" ∧ d = 1)
    ∧ Op.hsetnx ("pkt_" ++ hsh) "first_seen" (Value.int p.time)
        ∈ packetAndDeviceOps w p hsh smac
    ∧ Op.hsetnx ("mac_" ++ smac) "first_seen" (Value.int p.time)
        ∈ packetAndDeviceOps w p hsh smac
    ∧ applyOps s0 (packetAndDeviceOps w p hsh smac)
        ("pkt_" ++ hsh) "first_seen" = some v0
    ∧ applyOps s0 (packetAndDeviceOps w p hsh smac)
        ("pkt_" ++ hsh) "last_seen" = some (Value.int p.time)
    ∧ applyOps s0 (packetAndDeviceOps w p hsh smac)
        ("pkt_" ++ hsh) "num_sightings" = some (Value.int (n + 1))
    ∧ applyOps s0 (packetAndDeviceOps w p hsh smac)
        ("mac_" ++ smac) "first_seen" = some v1
    ∧ applyOps s0 (packetAndDeviceOps w p hsh smac)
        ("mac_" ++ smac) "last_seen" = some (Value.int p.time) := by
  have dPkMac : ("pkt_" ++ hsh) ≠ ("mac_" ++ smac) :=
    append_ne_append_char "pkt_" "mac_" hsh smac 0 'p' 'm'
      (by decide) (by decide) (by decide)
  have dMacPk : ("mac_" ++ smac) ≠ ("pkt_" ++ hsh) := Ne.symm dPkMac
  have dPkMkp : ("pkt_" ++ hsh) ≠ ("macpkts_" ++ smac) :=
    append_ne_append_char "pkt_" "macpkts_" hsh smac 0 'p' 'm'
      (by decide) (by decide) (by decide)
  have dMkpPk : ("macpkts_" ++ smac) ≠ ("pkt_" ++ hsh) := Ne.symm dPkMkp
  have dMacMkp : ("mac_" ++ smac) ≠ ("macpkts_" ++ smac) :=
    append_ne_append_char "mac_" "macpkts_" smac smac 3 '_' 'p'
      (by decide) (by decide) (by decide)
  have dMkpMac : ("macpkts_" ++ smac) ≠ ("mac_" ++ smac) := Ne.symm dMacMkp
  have fLbF : ("last_seen_by_" ++ w.name) ≠ "first_seen" :=
    append_ne_char "last_seen_by_" "first_seen" w.name 0 'l' 'f'
      (by decide) (by decide) (by decide)
  have fFLb : ("first_seen" : String) ≠ "last_seen_by_" ++ w.name :=
    Ne.symm fLbF
  have fLbN : ("last_seen_by_" ++ w.name) ≠ "num_sightings" :=
    append_ne_char "last_seen_by_" "num_sightings" w.name 0 'l' 'n'
      (by decide) (by decide) (by decide)
  refine ⟨?_, ?_, ?_, ?_, ?_, ?_, ?_, ?_, ?_, ?_⟩
  · intro o ho hkey
    simp only [packetAndDeviceOps, recordRawPacketOps, recordDeviceSightingOps,
      List.mem_append, List.mem_cons, List.not_mem_nil, or_false] at ho
    rcases ho with ((h | h | h) | (h | h | h | h)) <;> subst h <;>
      simp only [Op.key] at hkey <;>
      simp +decide [Op.overwrittenFields, commonFields, fFLb]
    rcases hkey with h | h
    · exact absurd h dMkpPk
    · exact absurd h dMkpMac
  · intro o ho
    simp only [packetAndDeviceOps, recordRawPacketOps, recordDeviceSightingOps,
      List.mem_append, List.mem_cons, List.not_mem_nil, or_false] at ho
    rcases ho with ((h | h | h) | (h | h | h | h)) <;> subst h <;>
      simp +decide [Op.ifAbsentFields]
  · intro o ho k f d heq
    simp only [packetAndDeviceOps, recordRawPacketOps, recordDeviceSightingOps,
      List.mem_append, List.mem_cons, List.not_mem_nil, or_false] at ho
    rcases ho with ((h | h | h) | (h | h | h | h)) <;> subst h <;>
      first
        | (injection heq with h1 h2 h3; exact ⟨h1.symm, h2.symm, h3.symm⟩)
        | simp at heq
  · simp [packetAndDeviceOps, recordRawPacketOps, recordDeviceSightingOps]
  · simp [packetAndDeviceOps, recordRawPacketOps, recordDeviceSightingOps]
  · simp +decide [packetAndDeviceOps, recordRawPacketOps,
      recordDeviceSightingOps, commonFields, applyOps, applyOp, lookupField,
      hpf, hpn, hmf, dPkMac, dMacPk, dPkMkp, dMkpPk, dMacMkp, dMkpMac,
      fLbF, fLbN, fFLb]
  · simp +decide [packetAndDeviceOps, recordRawPacketOps,
      recordDeviceSightingOps, commonFields, applyOps, applyOp, lookupField,
      hpf, hpn, hmf, dPkMac, dMacPk, dPkMkp, dMkpPk, dMacMkp, dMkpMac,
      fLbF, fLbN, fFLb]
  · simp +decide [packetAndDeviceOps, recordRawPacketOps,
      recordDeviceSightingOps, commonFields, applyOps, applyOp, lookupField,
      hpf, hpn, hmf, dPkMac, dMacPk, dPkMkp, dMkpPk, dMacMkp, dMkpMac,
      fLbF, fLbN, fFLb]
  · simp +decide [packetAndDeviceOps, recordRawPacketOps,
      recordDeviceSightingOps, commonFields, applyOps, applyOp, lookupField,
      hpf, hpn, hmf, dPkMac, dMacPk, dPkMkp, dMkpPk, dMacMkp, dMkpMac,
      fLbF, fLbN, fFLb]
  · simp +decide [packetAndDeviceOps, recordRawPacketOps,
      recordDeviceSightingOps, commonFields, applyOps, applyOp, lookupField,
      hpf, hpn, hmf, dPkMac, dMacPk, dPkMkp, dMkpPk, dMacMkp, dMkpMac,
      fLbF, fLbN, fFLb]

/-- Witness for C6: replay against a store that already has `first_seen`
and `num_sightings` for the packet key and `first_seen` for the MAC key. -/
theorem C6_first_seen_immutable_witness :
    applyOps
        (fun k f =>
          if k = "pkt_H" ∧ f = "first_seen" then some (Value.int 1)
          else if k = "pkt_H" ∧ f = "num_sightings" then some (Value.int 4)
          else if k = "mac_aa" ∧ f = "first_seen" then some (Value.int 2)
          else none)
        (packetAndDeviceOps ⟨"susan"⟩ ⟨[9], 7, "eth0", true⟩ "H" "aa")
        ("pkt_" ++ "H") "first_seen" = some (Value.int 1)
    ∧ applyOps
        (fun k f =>
          if k = "pkt_H" ∧ f = "first_seen" then some (Value.int 1)
          else if k = "pkt_H" ∧ f = "num_sightings" then some (Value.int 4)
          else if k = "mac_aa" ∧ f = "first_seen" then some (Value.int 2)
          else none)
        (packetAndDeviceOps ⟨"susan"⟩ ⟨[9], 7, "eth0", true⟩ "H" "aa")
        ("pkt_" ++ "H") "last_seen" = some (Value.int 7)
    ∧ applyOps
        (fun k f =>
          if k = "pkt_H" ∧ f = "first_seen" then some (Value.int 1)
          else if k = "pkt_H" ∧ f = "num_sightings" then some (Value.int 4)
          else if k = "mac_aa" ∧ f = "first_seen" then some (Value.int 2)
          else none)
        (packetAndDeviceOps ⟨"susan"⟩ ⟨[9], 7, "eth0", true⟩ "H" "aa")
        ("pkt_" ++ "H") "num_sightings" = some (Value.int (4 + 1))
    ∧ applyOps
        (fun k f =>
          if k = "pkt_H" ∧ f = "first_seen" then some (Value.int 1)
          else if k = "pkt_H" ∧ f = "num_sightings" then some (Value.int 4)
          else if k = "mac_aa" ∧ f = "first_seen" then some (Value.int 2)
          else none)
        (packetAndDeviceOps ⟨"susan"⟩ ⟨[9], 7, "eth0", true⟩ "H" "aa")
        ("mac_" ++ "aa") "first_seen" = some (Value.int 2) := by
  have h := C6_first_seen_immutable ⟨"susan"⟩ ⟨[9], 7, "eth0", true⟩ "H" "aa"
    (fun k f =>
      if k = "pkt_H" ∧ f = "first_seen" then some (Value.int 1)
      else if k = "pkt_H" ∧ f = "num_sightings" then some (Value.int 4)
      else if k = "mac_aa" ∧ f = "first_seen" then some (Value.int 2)
      else none)
    (Value.int 1) (Value.int 2) 4 (by decide) (by decide) (by decide)
  exact ⟨h.2.2.2.2.2.1, h.2.2.2.2.2.2.1, h.2.2.2.2.2.2.2.1,
    h.2.2.2.2.2.2.2.2.1⟩

/-- Witness for C10 at a packet with no link-layer view and a failing hash
step. -/
theorem C10_issue_set_members_witness :
    Op.sadd "unhandled:pkts:first_layer" none ∈
      (processorRun (fun _ => "") ⟨"susan"⟩ ⟨[1, 2, 3], 5, "eth0", false⟩
        ⟨true, fun _ _ => [], false⟩).ops := by
  have h := C10_issue_set_members (fun _ => "") ⟨"susan"⟩
    ⟨[1, 2, 3], 5, "eth0", false⟩ ⟨true, fun _ _ => [], false⟩
  exact (h.2.1 rfl rfl).2

end NxWorkers
